import Mathlib

/-!
Shallow embedding of the `static-slicing` Rust crate (src/lib.rs).

A fixed-size array `[T; N]` is modelled as a `List T` whose length is `N`.
The compile-time validity constants (`IsValidIndex::RESULT`,
`IsValidIndexRange::RESULT`) are modelled as `Bool`-valued predicates: the
const-eval panics of the source become `false` (an invalid access makes the
build fail, so the corresponding accessor is modelled as returning `none`).
The `SliceWrapper` runtime accessors return `Except SliceError _`, where the
error value carries exactly the data the source's assert message interpolates.
-/

/-- Embeds `IsValidIndex::RESULT` for `[T; N]` (src/lib.rs lines 69-75):
the const evaluates to `()` unless `INDEX >= N`, in which case it panics.
A panic is modelled as `false`. -/
def isValidIndex (INDEX N : Nat) : Bool :=
  if INDEX ≥ N then false else true

/-- Embeds `IsValidIndexRange::RESULT` for `[T; N]` (src/lib.rs lines 111-121):
panics when `START >= N`, then when `START + LENGTH > N`; otherwise `()`. -/
def isValidIndexRange (START LENGTH N : Nat) : Bool :=
  if START ≥ N then false
  else if START + LENGTH > N then false
  else true

/-- Embeds `Index<StaticIndex<INDEX>> for [T; N]` (src/lib.rs lines 77-86):
forces the validity const (build failure ↦ `none`), then reads the element
at offset `INDEX` from the array's storage. -/
def staticIndex_index {T : Type} (INDEX : Nat) (xs : List T) : Option T :=
  if isValidIndex INDEX xs.length then xs[INDEX]? else none

/-- Embeds `Index<StaticRangeIndex<START, LENGTH>> for [T; N]`
(src/lib.rs lines 123-134): forces the validity const, then reinterprets the
`LENGTH` elements starting at offset `START` as a `[T; LENGTH]` view. -/
def staticRangeIndex_index {T : Type} (START LENGTH : Nat) (xs : List T) :
    Option (List T) :=
  if isValidIndexRange START LENGTH xs.length then
    some ((xs.drop START).take LENGTH)
  else none

/-- Claim C1: single-index access on `[T; N]` is valid iff `INDEX < N`
(an invalid index is a build failure, modelled as `none`), and every valid
index `i`, including `i = 0` and `i = N - 1`, reads the element originally at
position `i`. -/
theorem single_index_access_correct {T : Type} (xs : List T) (i : Nat) :
    (isValidIndex i xs.length = true ↔ i < xs.length) ∧
    (∀ h : i < xs.length, staticIndex_index i xs = some (xs.get ⟨i, h⟩)) ∧
    (xs.length ≤ i → staticIndex_index i xs = none) := by
  refine ⟨?_, ?_, ?_⟩
  · simp [isValidIndex]
  · intro h
    simp [staticIndex_index, isValidIndex, Nat.not_le.mpr h,
      List.getElem?_eq_getElem h]
  · intro h
    simp [staticIndex_index, isValidIndex, h]

/-- Witness for C1: index 2 of the 4-element array `[3, 5, 7, 9]` is valid
and reads 7 (the doc example of the crate). -/
theorem single_index_access_correct_witness :
    (2 : Nat) < ([3, 5, 7, 9] : List Nat).length ∧
    staticIndex_index 2 ([3, 5, 7, 9] : List Nat) = some 7 :=
  ⟨by decide,
    (single_index_access_correct ([3, 5, 7, 9] : List Nat) 2).2.1 (by decide)⟩

/-- Claim C2: the range validity const passes iff `START < N` and
`N - START ≥ LENGTH`; a failing const makes the fixed-array range accessor
fail to build (modelled as `none`) rather than fail at runtime; in particular
the empty range exactly at the end (`START = N`, `LENGTH = 0`) is rejected. -/
theorem range_validity_iff {T : Type} (xs : List T) (START LENGTH N : Nat) :
    (isValidIndexRange START LENGTH N = true ↔
      START < N ∧ LENGTH ≤ N - START) ∧
    isValidIndexRange N 0 N = false ∧
    (staticRangeIndex_index START LENGTH xs = none ↔
      isValidIndexRange START LENGTH xs.length = false) := by
  refine ⟨?_, ?_, ?_⟩
  · simp [isValidIndexRange]
    omega
  · simp [isValidIndexRange]
  · cases hv : isValidIndexRange START LENGTH xs.length <;>
      simp [staticRangeIndex_index, hv]

/-- Counterexample to C3 as stated: for `xs = [0]` (so `N = 1`), `START = 1`,
`LENGTH = 0` we have `START + LENGTH ≤ N`, yet range access does not yield a
view — the validity const panics on `START >= N`, so the build fails. -/
theorem range_read_start_at_end_cex :
    (1 : Nat) + 0 ≤ ([0] : List Nat).length ∧
    staticRangeIndex_index 1 0 ([0] : List Nat) = none := by
  constructor
  · decide
  · rfl

/-- Claim C3 (amended): for all `START`, `LENGTH` with `START < N` and
`START + LENGTH ≤ N`, range access on `[T; N]` yields a view of exactly
`LENGTH` elements equal to the source's elements at positions
`[START, START + LENGTH)`, in order. -/
theorem range_read_correct {T : Type} (xs : List T) (START LENGTH : Nat)
    (h1 : START < xs.length) (h2 : START + LENGTH ≤ xs.length) :
    ∃ v, staticRangeIndex_index START LENGTH xs = some v ∧
      v.length = LENGTH ∧ ∀ j, j < LENGTH → v[j]? = xs[START + j]? := by
  refine ⟨(xs.drop START).take LENGTH, ?_, ?_, ?_⟩
  · simp [staticRangeIndex_index, isValidIndexRange]
    omega
  · simp [List.length_take, List.length_drop]
    omega
  · intro j hj
    rw [List.getElem?_take, if_pos hj, List.getElem?_drop]

/-- Witness for C3 (amended): the crate's doc example, an 8-element view of a
12-element array starting at index 4. -/
theorem range_read_correct_witness :
    (4 : Nat) < ([0, 1, 2, 3, 4, 5, 6, 7, 8, 9, 10, 11] : List Nat).length ∧
    (4 : Nat) + 8 ≤ ([0, 1, 2, 3, 4, 5, 6, 7, 8, 9, 10, 11] : List Nat).length ∧
    ∃ v, staticRangeIndex_index 4 8
        ([0, 1, 2, 3, 4, 5, 6, 7, 8, 9, 10, 11] : List Nat) = some v ∧
      v.length = 8 ∧ ∀ j, j < 8 →
        v[j]? = ([0, 1, 2, 3, 4, 5, 6, 7, 8, 9, 10, 11] : List Nat)[4 + j]? :=
  ⟨by decide, by decide,
    range_read_correct ([0, 1, 2, 3, 4, 5, 6, 7, 8, 9, 10, 11] : List Nat) 4 8
      (by decide) (by decide)⟩

/-- Counterexample to C7 as stated: for the empty array (`N = 0`), range
access with `start = 0`, `length = N = 0` does not return the container —
the validity const rejects `START >= N`, so the build fails. -/
theorem full_range_empty_cex :
    staticRangeIndex_index 0 ([] : List Nat).length ([] : List Nat) = none := by
  rfl

/-- Claim C7 (amended): for every nonempty fixed-capacity container of length
`N`, range access with `start = 0` and `length = N` returns a view equal to
the entire container, element-for-element. -/
theorem full_range_read {T : Type} (xs : List T) (h : 0 < xs.length) :
    staticRangeIndex_index 0 xs.length xs = some xs := by
  simp [staticRangeIndex_index, isValidIndexRange, Nat.not_le.mpr h,
    List.take_of_length_le (le_refl xs.length)]

/-- Witness for C7 (amended): the full-range view of `[1, 2, 3]` is
`[1, 2, 3]` itself. -/
theorem full_range_read_witness :
    0 < ([1, 2, 3] : List Nat).length ∧
    staticRangeIndex_index 0 ([1, 2, 3] : List Nat).length
      ([1, 2, 3] : List Nat) = some [1, 2, 3] :=
  ⟨by decide, full_range_read ([1, 2, 3] : List Nat) (by decide)⟩

/-- The runtime failures of `SliceWrapper`'s accessors, carrying exactly the
data interpolated into the corresponding panic message of the source:
- `startOutOfBounds s` — `assert!(inner.len() > START, "Starting index {} is
  out of bounds", START)` (src/lib.rs lines 181, 201) names only the start;
- `notEnoughItems s l n` — `assert!(inner.len() - START >= LENGTH, "Not
  enough items after index {} (requested {}; length: {})", START, LENGTH,
  inner.len())` (lines 182, 202) names start, requested length, actual length;
- `sliceOutOfBounds i n` — the standard slice indexing failure raised by
  `self.0.as_ref().index(INDEX)` (line 193), naming index and length. -/
inductive SliceError : Type where
  | startOutOfBounds (start : Nat) : SliceError
  | notEnoughItems (start length len : Nat) : SliceError
  | sliceOutOfBounds (idx len : Nat) : SliceError
  deriving DecidableEq, Repr

/-- The numbers a `SliceError` diagnostic reports. -/
def SliceError.reported : SliceError → List Nat
  | .startOutOfBounds s => [s]
  | .notEnoughItems s l n => [s, l, n]
  | .sliceOutOfBounds i n => [i, n]

/-- Embeds `Index<StaticIndex<INDEX>> for SliceWrapper` (src/lib.rs lines
189-195): delegates to slice indexing on the wrapped data, which panics when
`INDEX` is not below the current length. The wrapped container is modelled by
its contiguous view `xs`. -/
def sliceWrapper_index {I : Type} (INDEX : Nat) (xs : List I) :
    Except SliceError I :=
  if h : INDEX < xs.length then .ok (xs.get ⟨INDEX, h⟩)
  else .error (.sliceOutOfBounds INDEX xs.length)

/-- Embeds `Index<StaticRangeIndex<START, LENGTH>> for SliceWrapper`
(src/lib.rs lines 175-187): asserts `inner.len() > START`, then
`inner.len() - START >= LENGTH`, then reinterprets the `LENGTH` elements
starting at offset `START` as a `[I; LENGTH]` view. -/
def sliceWrapper_rangeIndex {I : Type} (START LENGTH : Nat) (xs : List I) :
    Except SliceError (List I) :=
  if xs.length > START then
    if xs.length - START ≥ LENGTH then .ok ((xs.drop START).take LENGTH)
    else .error (.notEnoughItems START LENGTH xs.length)
  else .error (.startOutOfBounds START)

/-- Counterexample to C4 as stated: over the 3-element wrapped container
`[1, 2, 3]`, the range access with `START = 5`, `LENGTH = 1` has
`START + LENGTH > 3` and aborts, but its diagnostic is the first assert's,
which names only the requested start 5 — neither the requested length 1 nor
the actual length 3 appears in it. -/
theorem wrapper_range_diagnostic_cex :
    sliceWrapper_rangeIndex 5 1 ([1, 2, 3] : List Nat) =
      .error (.startOutOfBounds 5) ∧
    (5 : Nat) + 1 > ([1, 2, 3] : List Nat).length ∧
    (SliceError.startOutOfBounds 5).reported = [5] ∧
    ¬ (3 : Nat) ∈ (SliceError.startOutOfBounds 5).reported ∧
    ¬ (1 : Nat) ∈ (SliceError.startOutOfBounds 5).reported := by
  refine ⟨rfl, by decide, rfl, by decide, by decide⟩

/-- Claim C4 (amended): over a wrapped container of current length `L`,
single-index access with `INDEX ≥ L` and range access with
`START + LENGTH > L` abort and never return a value; a range failure whose
start is within bounds carries a diagnostic naming the requested start,
requested length, and actual length (a start at or beyond `L` aborts with a
diagnostic naming only the start); accesses satisfying the bounds rule
succeed and return the element, respectively a `LENGTH`-element view. -/
theorem wrapper_access_bounds {I : Type} (xs : List I)
    (INDEX START LENGTH : Nat) :
    (xs.length ≤ INDEX → ∃ e, sliceWrapper_index INDEX xs = .error e) ∧
    (∀ h : INDEX < xs.length,
      sliceWrapper_index INDEX xs = .ok (xs.get ⟨INDEX, h⟩)) ∧
    (xs.length < START + LENGTH →
      ∃ e, sliceWrapper_rangeIndex START LENGTH xs = .error e ∧
        (START < xs.length →
          e = .notEnoughItems START LENGTH xs.length ∧
          e.reported = [START, LENGTH, xs.length]) ∧
        (xs.length ≤ START →
          e = .startOutOfBounds START ∧ e.reported = [START])) ∧
    (START < xs.length → LENGTH ≤ xs.length - START →
      sliceWrapper_rangeIndex START LENGTH xs =
        .ok ((xs.drop START).take LENGTH) ∧
      ((xs.drop START).take LENGTH).length = LENGTH) := by
  refine ⟨?_, ?_, ?_, ?_⟩
  · intro h
    exact ⟨.sliceOutOfBounds INDEX xs.length,
      by simp [sliceWrapper_index, Nat.not_lt.mpr h]⟩
  · intro h
    simp [sliceWrapper_index, h]
  · intro h
    by_cases hs : START < xs.length
    · have hlen : ¬ LENGTH ≤ xs.length - START := by omega
      refine ⟨.notEnoughItems START LENGTH xs.length, ?_, ?_, ?_⟩
      · simp [sliceWrapper_rangeIndex, hs, hlen]
      · exact fun _ => ⟨rfl, rfl⟩
      · intro hc
        exact absurd hs (Nat.not_lt.mpr hc)
    · refine ⟨.startOutOfBounds START,
        by simp [sliceWrapper_rangeIndex, hs], fun hc => absurd hc hs, ?_⟩
      exact fun _ => ⟨rfl, rfl⟩
  · intro hs hlen
    refine ⟨by simp [sliceWrapper_rangeIndex, hs, hlen], ?_⟩
    simp [List.length_take, List.length_drop]
    omega

/-- Witness for C4 (amended), on the spec's 3-element example: index 3,
range (0, 5) and range (5, 1) abort, index 2 and range (0, 3) succeed. -/
theorem wrapper_access_bounds_witness :
    (∃ e, sliceWrapper_index 3 ([1, 2, 3] : List Nat) = .error e) ∧
    sliceWrapper_index 2 ([1, 2, 3] : List Nat) =
      .ok (([1, 2, 3] : List Nat).get ⟨2, by decide⟩) ∧
    (∃ e, sliceWrapper_rangeIndex 0 5 ([1, 2, 3] : List Nat) = .error e ∧
      (0 < ([1, 2, 3] : List Nat).length →
        e = .notEnoughItems 0 5 ([1, 2, 3] : List Nat).length ∧
        e.reported = [0, 5, ([1, 2, 3] : List Nat).length]) ∧
      (([1, 2, 3] : List Nat).length ≤ 0 →
        e = .startOutOfBounds 0 ∧ e.reported = [0])) ∧
    (∃ e, sliceWrapper_rangeIndex 5 1 ([1, 2, 3] : List Nat) = .error e ∧
      (5 < ([1, 2, 3] : List Nat).length →
        e = .notEnoughItems 5 1 ([1, 2, 3] : List Nat).length ∧
        e.reported = [5, 1, ([1, 2, 3] : List Nat).length]) ∧
      (([1, 2, 3] : List Nat).length ≤ 5 →
        e = .startOutOfBounds 5 ∧ e.reported = [5])) ∧
    sliceWrapper_rangeIndex 0 3 ([1, 2, 3] : List Nat) =
      .ok ((([1, 2, 3] : List Nat).drop 0).take 3) :=
  ⟨(wrapper_access_bounds ([1, 2, 3] : List Nat) 3 0 0).1 (by decide),
    (wrapper_access_bounds ([1, 2, 3] : List Nat) 2 0 0).2.1 (by decide),
    (wrapper_access_bounds ([1, 2, 3] : List Nat) 0 0 5).2.2.1 (by decide),
    (wrapper_access_bounds ([1, 2, 3] : List Nat) 0 5 1).2.2.1 (by decide),
    ((wrapper_access_bounds ([1, 2, 3] : List Nat) 0 0 3).2.2.2
      (by decide) (by decide)).1⟩

/-- Claim C10: over a wrapped container of current length `L`, a range access
with `LENGTH = 0` succeeds (returning an empty fixed-size view) iff
`START < L`; when `START = L` — including `START = 0` over an empty
container — it aborts with the starting-index assert. -/
theorem wrapper_empty_range {I : Type} (xs : List I) (START : Nat) :
    ((sliceWrapper_rangeIndex START 0 xs).isOk = true ↔ START < xs.length) ∧
    (START < xs.length → sliceWrapper_rangeIndex START 0 xs = .ok []) ∧
    (START = xs.length → sliceWrapper_rangeIndex START 0 xs =
      .error (.startOutOfBounds START)) := by
  refine ⟨?_, ?_, ?_⟩
  · by_cases hs : START < xs.length <;>
      simp [sliceWrapper_rangeIndex, hs, Except.isOk, Except.toBool]
  · intro hs
    simp [sliceWrapper_rangeIndex, hs]
  · intro hs
    simp [sliceWrapper_rangeIndex, hs]

/-- Witness for C10: over the empty container, the empty range at start 0
aborts; over `[1, 2]`, the empty range at start 1 succeeds with `[]`. -/
theorem wrapper_empty_range_witness :
    sliceWrapper_rangeIndex 0 0 ([] : List Nat) =
      .error (.startOutOfBounds 0) ∧
    sliceWrapper_rangeIndex 1 0 ([1, 2] : List Nat) = .ok [] :=
  ⟨(wrapper_empty_range ([] : List Nat) 0).2.2 rfl,
    (wrapper_empty_range ([1, 2] : List Nat) 1).2.1 (by decide)⟩

/-- Subtraction as it behaves on `usize` in a checked build: `a - b`
underflows (fails) when `b > a`. -/
def usizeSub (a b : Nat) : Option Nat :=
  if b ≤ a then some (a - b) else none

/-- The wrapper's range bounds check with the source's sequencing
(src/lib.rs lines 181-182 and 201-202): the subtraction `inner.len() - START`
is evaluated only in the branch where `inner.len() > START` has already been
asserted. `none` would mean the check itself underflowed. -/
def sliceWrapper_boundsCheck (START LENGTH len : Nat) : Option Bool :=
  if len > START then (usizeSub len START).map (fun d => decide (d ≥ LENGTH))
  else some false

/-- Claim C8: the wrapper's range bounds check never underflows — the
subtraction `len - START` is reached only after `len > START` holds — and
the check passes exactly when the range accessor succeeds. -/
theorem range_check_no_underflow {I : Type} (xs : List I)
    (START LENGTH : Nat) :
    (sliceWrapper_boundsCheck START LENGTH xs.length).isSome = true ∧
    (sliceWrapper_boundsCheck START LENGTH xs.length = some true ↔
      (sliceWrapper_rangeIndex START LENGTH xs).isOk = true) := by
  by_cases hs : START < xs.length
  · have hsub : START ≤ xs.length := Nat.le_of_lt hs
    by_cases hlen : LENGTH ≤ xs.length - START <;>
      simp [sliceWrapper_boundsCheck, usizeSub, sliceWrapper_rangeIndex,
        hs, hsub, hlen, Except.isOk, Except.toBool]
  · simp [sliceWrapper_boundsCheck, sliceWrapper_rangeIndex, hs,
      Except.isOk, Except.toBool]

/-- Writing a `[T; LENGTH]` value `w` through a range accessor's mutable
view replaces the `LENGTH` elements of `xs` starting at offset `START`. -/
def spliceAt {T : Type} (START LENGTH : Nat) (xs w : List T) : List T :=
  xs.take START ++ w ++ xs.drop (START + LENGTH)

/-- Embeds `IndexMut<StaticIndex<INDEX>> for [T; N]` (src/lib.rs lines
88-95) composed with a store of `v` through the returned reference. -/
def staticIndex_index_mut {T : Type} (INDEX : Nat) (xs : List T) (v : T) :
    Option (List T) :=
  if isValidIndex INDEX xs.length then some (xs.set INDEX v) else none

/-- Embeds `IndexMut<StaticRangeIndex<START, LENGTH>> for [T; N]`
(src/lib.rs lines 136-145) composed with a store of the `[T; LENGTH]` value
`w` through the returned view. -/
def staticRangeIndex_index_mut {T : Type} (START LENGTH : Nat)
    (xs w : List T) : Option (List T) :=
  if isValidIndexRange START LENGTH xs.length then
    some (spliceAt START LENGTH xs w)
  else none

/-- Embeds `IndexMut<StaticIndex<INDEX>> for SliceWrapper` (src/lib.rs lines
209-213) composed with a store of `v`: delegates to slice `index_mut`, which
panics when `INDEX` is not below the current length. -/
def sliceWrapper_index_mut {I : Type} (INDEX : Nat) (xs : List I) (v : I) :
    Except SliceError (List I) :=
  if INDEX < xs.length then .ok (xs.set INDEX v)
  else .error (.sliceOutOfBounds INDEX xs.length)

/-- Embeds `IndexMut<StaticRangeIndex<START, LENGTH>> for SliceWrapper`
(src/lib.rs lines 197-207) composed with a store of the `[I; LENGTH]` value
`w`: same asserts as the read accessor, then the elements at
`[START, START + LENGTH)` are replaced. -/
def sliceWrapper_rangeIndex_mut {I : Type} (START LENGTH : Nat)
    (xs w : List I) : Except SliceError (List I) :=
  if xs.length > START then
    if xs.length - START ≥ LENGTH then .ok (spliceAt START LENGTH xs w)
    else .error (.notEnoughItems START LENGTH xs.length)
  else .error (.startOutOfBounds START)

theorem spliceAt_getElem_lt {T : Type} (xs w : List T) {START LENGTH j : Nat}
    (hS : START ≤ xs.length) (hj : j < START) :
    (spliceAt START LENGTH xs w)[j]? = xs[j]? := by
  have h1 : j < (xs.take START ++ w).length := by
    simp [List.length_take]
    omega
  have h2 : j < (xs.take START).length := by
    simp [List.length_take]
    omega
  rw [spliceAt, List.getElem?_append, if_pos h1, List.getElem?_append,
    if_pos h2, List.getElem?_take, if_pos hj]

theorem spliceAt_getElem_mid {T : Type} (xs w : List T)
    {START LENGTH k : Nat} (hS : START ≤ xs.length) (hw : w.length = LENGTH)
    (hk : k < LENGTH) :
    (spliceAt START LENGTH xs w)[START + k]? = w[k]? := by
  have hlen : (xs.take START).length = START := by
    simp [List.length_take]
    omega
  have h1 : START + k < (xs.take START ++ w).length := by
    simp [List.length_take]
    omega
  rw [spliceAt, List.getElem?_append, if_pos h1,
    List.getElem?_append_right (by rw [hlen]; omega), hlen,
    Nat.add_sub_cancel_left]

theorem spliceAt_getElem_ge {T : Type} (xs w : List T) {START LENGTH j : Nat}
    (hb : START + LENGTH ≤ xs.length) (hw : w.length = LENGTH)
    (hj : START + LENGTH ≤ j) :
    (spliceAt START LENGTH xs w)[j]? = xs[j]? := by
  have hlen : (xs.take START ++ w).length = START + LENGTH := by
    simp [List.length_take]
    omega
  rw [spliceAt, List.getElem?_append_right (by rw [hlen]; omega), hlen,
    List.getElem?_drop]
  congr 1
  omega

/-- Claim C6: a valid write through any of the four mutable accessors
(single-index or range, fixed array or wrapper) is observed exactly by a
subsequent read — the written position(s) hold the written value(s) and
every position outside the written index or range is unchanged. -/
theorem write_read_frame {T : Type} (xs w : List T) (i START LENGTH : Nat)
    (v : T) (hw : w.length = LENGTH) :
    (i < xs.length →
      ∃ ys, staticIndex_index_mut i xs v = some ys ∧
        ys[i]? = some v ∧ ∀ j, j ≠ i → ys[j]? = xs[j]?) ∧
    (isValidIndexRange START LENGTH xs.length = true →
      ∃ ys, staticRangeIndex_index_mut START LENGTH xs w = some ys ∧
        (∀ k, k < LENGTH → ys[START + k]? = w[k]?) ∧
        (∀ j, j < START ∨ START + LENGTH ≤ j → ys[j]? = xs[j]?)) ∧
    (i < xs.length →
      ∃ ys, sliceWrapper_index_mut i xs v = .ok ys ∧
        ys[i]? = some v ∧ ∀ j, j ≠ i → ys[j]? = xs[j]?) ∧
    (START < xs.length → LENGTH ≤ xs.length - START →
      ∃ ys, sliceWrapper_rangeIndex_mut START LENGTH xs w = .ok ys ∧
        (∀ k, k < LENGTH → ys[START + k]? = w[k]?) ∧
        (∀ j, j < START ∨ START + LENGTH ≤ j → ys[j]? = xs[j]?)) := by
  have hset : ∀ _h : i < xs.length,
      (xs.set i v)[i]? = some v ∧ ∀ j, j ≠ i → (xs.set i v)[j]? = xs[j]? := by
    intro h
    constructor
    · simp [List.getElem?_set, h]
    · intro j hj
      rw [List.getElem?_set, if_neg (fun hc => hj hc.symm)]
  have hsplice : ∀ _h : START + LENGTH ≤ xs.length,
      (∀ k, k < LENGTH → (spliceAt START LENGTH xs w)[START + k]? = w[k]?) ∧
      (∀ j, j < START ∨ START + LENGTH ≤ j →
        (spliceAt START LENGTH xs w)[j]? = xs[j]?) := by
    intro hb
    constructor
    · intro k hk
      exact spliceAt_getElem_mid xs w (by omega) hw hk
    · intro j hj
      rcases hj with hj | hj
      · exact spliceAt_getElem_lt xs w (by omega) hj
      · exact spliceAt_getElem_ge xs w hb hw hj
  refine ⟨?_, ?_, ?_, ?_⟩
  · intro h
    exact ⟨xs.set i v,
      by simp [staticIndex_index_mut, isValidIndex, Nat.not_le.mpr h],
      hset h⟩
  · intro hv
    have hb : START + LENGTH ≤ xs.length := by
      have := (range_validity_iff xs START LENGTH xs.length).1.mp hv
      omega
    exact ⟨spliceAt START LENGTH xs w,
      by simp [staticRangeIndex_index_mut, hv], hsplice hb⟩
  · intro h
    exact ⟨xs.set i v, by simp [sliceWrapper_index_mut, h], hset h⟩
  · intro hs hlen
    exact ⟨spliceAt START LENGTH xs w,
      by simp [sliceWrapper_rangeIndex_mut, hs, hlen],
      hsplice (by omega)⟩

/-- Witness for C6: writes into `[3, 5, 7, 9]` — element 11 at index 2, and
`[10, 20]` at range (1, 2) — through all four mutable accessors. -/
theorem write_read_frame_witness :
    (∃ ys, staticIndex_index_mut 2 ([3, 5, 7, 9] : List Nat) 11 = some ys ∧
      ys[2]? = some 11 ∧
      ∀ j, j ≠ 2 → ys[j]? = ([3, 5, 7, 9] : List Nat)[j]?) ∧
    (∃ ys, staticRangeIndex_index_mut 1 2 ([3, 5, 7, 9] : List Nat)
        [10, 20] = some ys ∧
      (∀ k, k < 2 → ys[1 + k]? = ([10, 20] : List Nat)[k]?) ∧
      (∀ j, j < 1 ∨ 1 + 2 ≤ j → ys[j]? = ([3, 5, 7, 9] : List Nat)[j]?)) ∧
    (∃ ys, sliceWrapper_index_mut 2 ([3, 5, 7, 9] : List Nat) 11 = .ok ys ∧
      ys[2]? = some 11 ∧
      ∀ j, j ≠ 2 → ys[j]? = ([3, 5, 7, 9] : List Nat)[j]?) ∧
    (∃ ys, sliceWrapper_rangeIndex_mut 1 2 ([3, 5, 7, 9] : List Nat)
        [10, 20] = .ok ys ∧
      (∀ k, k < 2 → ys[1 + k]? = ([10, 20] : List Nat)[k]?) ∧
      (∀ j, j < 1 ∨ 1 + 2 ≤ j → ys[j]? = ([3, 5, 7, 9] : List Nat)[j]?)) :=
  ⟨(write_read_frame ([3, 5, 7, 9] : List Nat) [10, 20] 2 1 2 11 rfl).1
      (by decide),
    (write_read_frame ([3, 5, 7, 9] : List Nat) [10, 20] 2 1 2 11 rfl).2.1
      (by decide),
    (write_read_frame ([3, 5, 7, 9] : List Nat) [10, 20] 2 1 2 11 rfl).2.2.1
      (by decide),
    (write_read_frame ([3, 5, 7, 9] : List Nat) [10, 20] 2 1 2 11 rfl).2.2.2
      (by decide) (by decide)⟩

/-- Embeds `FixedSizeCopy::copy_from for [T; N]` (src/lib.rs lines 246-261):
`ptr::copy_nonoverlapping(input.as_ptr(), self.as_mut_ptr(), N)` overwrites
the first `N` elements of the destination in place with the first `N`
elements of the input, leaving any remainder (none, since both arrays have
type `[T; N]`). The input is taken by value and never written. -/
def copy_from {T : Type} (N : Nat) (dst input : List T) : List T :=
  input.take N ++ dst.drop N

/-- Claim C5: for two fixed-size arrays of identical length `N`, after
`destination.copy_from(source)` the destination equals the source
element-wise. The source is unmodified (it is only ever read) and the
operation is a total function of the operands — there is no runtime failure
path and no partial-copy outcome. -/
theorem copy_from_correct {T : Type} (N : Nat) (dst src : List T)
    (hd : dst.length = N) (hs : src.length = N) :
    copy_from N dst src = src := by
  subst hs
  rw [copy_from, List.take_length, List.drop_eq_nil_of_le (by omega),
    List.append_nil]

/-- Witness for C5: the spec's example — copying `[0, 1, 2, 3]` onto
`[9, 9, 9, 9]` yields `[0, 1, 2, 3]`. -/
theorem copy_from_correct_witness :
    ([9, 9, 9, 9] : List Nat).length = 4 ∧
    ([0, 1, 2, 3] : List Nat).length = 4 ∧
    copy_from 4 ([9, 9, 9, 9] : List Nat) [0, 1, 2, 3] = [0, 1, 2, 3] :=
  ⟨rfl, rfl, copy_from_correct 4 [9, 9, 9, 9] [0, 1, 2, 3] rfl rfl⟩
